import Mathlib

/-!
# Verification of the Jellyfin Chromecast playback layer

Shallow embedding of the playback manager (`playbackManager.ts`) and of the
session reporter / server actions (`jellyfinActions.ts`).

Modelling conventions:
  - Machine numbers are `Nat` (all quantities involved — ticks, byte counts,
    millisecond timestamps, timer handles — are non-negative and far below
    2^53, so JavaScript number arithmetic is exact on them).
  - Network calls, message-bus broadcasts and timer manipulations are recorded
    as explicit events (`Ev`) in the order the source performs them; the
    outcome of a network call is supplied by an explicit environment where the
    code inspects it.
  - The module-level variables of `jellyfinActions.ts` (`pingInterval`,
    `lastTranscoderPing`) are fields of `ReporterState`.  The set of
    currently-scheduled `setInterval` timers is tracked in `scheduled`
    (handle paired with the reporting parameters captured by the callback
    closure); `pingInterval` mirrors the module variable itself.  The module
    variable starts out `undefined` in JS; since `stopPingInterval`'s
    `pingInterval !== 0` guard treats `undefined` exactly like a stale
    nonzero-free value (clearing nothing and writing `0`), the initial value
    is modelled as `0`, which is observably identical.
-/

/-- `PlayMethod` from the Jellyfin SDK (serialized as the strings
`'DirectPlay' | 'DirectStream' | 'Transcode'`). -/
inductive PlayMethod
  | directPlay
  | directStream
  | transcode
  deriving DecidableEq, Repr

/-- The fields of `PlaybackProgressInfo` that the reporter code inspects:
`PlayMethod` (compared against `'Transcode'`) and `PlaySessionId` (sent with
ping and stop requests). -/
structure PlaybackProgressInfo where
  playMethod : Option PlayMethod
  playSessionId : String
  deriving DecidableEq, Repr

/-- Observable actions, in program order: message-bus broadcasts, network
requests to the server (one constructor per endpoint), timer manipulation and
host-player calls. -/
inductive Ev
  | broadcast (type : String)
  | postPlaying (sid : String)
  | postProgress (sid : String)
  | postStopped (sid : String)
  | ping (sid : String)
  | postPlaybackInfo (itemId : String)
  | postLiveStreamOpen (itemId : String)
  | checkDirectPlay (sourceId : String)
  | playerLoad (sourceId : String) (sid : String)
  | playerStop
  | timerSet (handle : Nat)
  | timerCleared (handle : Nat)
  deriving DecidableEq, Repr

def Ev.isPing : Ev → Bool
  | Ev.ping _ => true
  | _ => false

def Ev.isStopReport : Ev → Bool
  | Ev.postStopped _ => true
  | _ => false

def Ev.isPlaybackInfoReq : Ev → Bool
  | Ev.postPlaybackInfo _ => true
  | _ => false

def Ev.isTimerCleared : Ev → Bool
  | Ev.timerCleared _ => true
  | _ => false

/-- Module-level state of `jellyfinActions.ts`. -/
structure ReporterState where
  /-- the `pingInterval` module variable (`0` = no handle recorded). -/
  pingInterval : Nat
  /-- all `setInterval` timers scheduled and not yet cleared, each with the
  `reportingParams` captured by its callback closure. -/
  scheduled : List (Nat × PlaybackProgressInfo)
  /-- next fresh handle `setInterval` returns (handles are positive). -/
  nextHandle : Nat
  /-- the `lastTranscoderPing` module variable (ms timestamp, initially 0). -/
  lastTranscoderPing : Nat
  deriving DecidableEq, Repr

def ReporterState.init : ReporterState :=
  { pingInterval := 0, scheduled := [], nextHandle := 1, lastTranscoderPing := 0 }

/-- `clearInterval(h)`: deschedules the timer with handle `h` (no-op when no
such timer is live). -/
def clearIntervalFn (h : Nat) (s : ReporterState) : ReporterState × List Ev :=
  ({ s with scheduled := s.scheduled.filter (fun q => q.1 ≠ h) }, [Ev.timerCleared h])

/-- `setInterval(cb, 1000)` where `cb` captures `params`: schedules a fresh
timer and returns its handle. -/
def setIntervalFn (params : PlaybackProgressInfo) (s : ReporterState) :
    Nat × ReporterState × List Ev :=
  (s.nextHandle,
   { s with scheduled := s.scheduled ++ [(s.nextHandle, params)],
            nextHandle := s.nextHandle + 1 },
   [Ev.timerSet s.nextHandle])

/-- `stopPingInterval` (jellyfinActions.ts lines 49–54). -/
def stopPingInterval (s : ReporterState) : ReporterState × List Ev :=
  if s.pingInterval ≠ 0 then
    ({ (clearIntervalFn s.pingInterval s).1 with pingInterval := 0 },
     (clearIntervalFn s.pingInterval s).2)
  else (s, [])

/-- `restartPingInterval` (jellyfinActions.ts lines 34–42): always stops the
previous timer first, then schedules a new one only for `PlayMethod ==
'Transcode'`. -/
def restartPingInterval (params : PlaybackProgressInfo) (s : ReporterState) :
    ReporterState × List Ev :=
  let s1 := (stopPingInterval s).1
  let e1 := (stopPingInterval s).2
  if params.playMethod = some PlayMethod.transcode then
    ({ (setIntervalFn params s1).2.1 with pingInterval := (setIntervalFn params s1).1 },
     e1 ++ (setIntervalFn params s1).2.2)
  else (s1, e1)

/-- `pingTranscoder` (jellyfinActions.ts lines 156–184).  The two
`new Date().getTime()` reads inside one call are modelled as the same instant
`now`.  The returned state is fixed before the request is issued (the source
assigns `lastTranscoderPing` on line 170, before the `authAjax` call on line
173), so a failed request leaves the timestamp refreshed. -/
def pingTranscoder (params : PlaybackProgressInfo) (now : Nat) (s : ReporterState) :
    ReporterState × List Ev :=
  if now - s.lastTranscoderPing < 5000 then
    (s, [])
  else
    ({ s with lastTranscoderPing := now }, [Ev.ping params.playSessionId])

/-- `MediaSourceInfo`: the fields the embedded code inspects. -/
structure MediaSourceInfo where
  id : String
  requiresOpening : Bool
  supportsDirectPlay : Bool
  openToken : Option String
  deriving DecidableEq, Repr

/-- `BaseItemDto`: the fields the embedded code inspects. -/
structure BaseItemDto where
  id : String
  mediaType : Option String
  deriving DecidableEq, Repr

/-- `PlaybackState` (playbackManager.ts lines 33–54).  `Option` stands for
the TypeScript `null`/`undefined` cases; `mediaType` distinguishes the empty
string (`some ""`) from `null`/`undefined` (`none`). -/
structure PlaybackState where
  startPositionTicks : Nat
  mediaType : Option String
  itemId : String
  audioStreamIndex : Option Nat
  subtitleStreamIndex : Option Nat
  mediaSource : Option MediaSourceInfo
  mediaSourceId : String
  PlaybackMediaSource : Option MediaSourceInfo
  playMethod : Option PlayMethod
  canSeek : Bool
  isChangingStream : Bool
  playNextItemBool : Bool
  item : Option BaseItemDto
  liveStreamId : String
  playSessionId : String
  runtimeTicks : Nat
  deriving DecidableEq, Repr

/-- The `playbackState` field initializer (playbackManager.ts lines 62–79). -/
def initialPlaybackState : PlaybackState :=
  { startPositionTicks := 0
    mediaType := some ""
    itemId := ""
    audioStreamIndex := none
    subtitleStreamIndex := none
    mediaSource := none
    mediaSourceId := ""
    PlaybackMediaSource := none
    playMethod := none
    canSeek := false
    isChangingStream := false
    playNextItemBool := true
    item := none
    liveStreamId := ""
    playSessionId := ""
    runtimeTicks := 0 }

/-- `playbackManager.resetPlaybackScope` (playbackManager.ts lines 293–319),
field assignments transcribed one-for-one.  The source never writes
`runtimeTicks` in this method, so that field keeps its previous value. -/
def resetPlaybackScope (s : PlaybackState) : PlaybackState :=
  { s with
    startPositionTicks := 0
    mediaType := some ""
    itemId := ""
    audioStreamIndex := none
    subtitleStreamIndex := none
    mediaSource := none
    mediaSourceId := ""
    PlaybackMediaSource := none
    playMethod := none
    canSeek := false
    isChangingStream := false
    playNextItemBool := true
    item := none
    liveStreamId := ""
    playSessionId := "" }

/-- `reportPlaybackStart` (jellyfinActions.ts lines 63–86): broadcast
`playbackstart`, restart the ping interval, post the start event.  The
`state` argument only feeds the (unmodelled) broadcast payload. -/
def reportPlaybackStart (state : PlaybackState) (params : PlaybackProgressInfo)
    (s : ReporterState) : ReporterState × List Ev :=
  ((restartPingInterval params s).1,
   [Ev.broadcast "playbackstart"] ++ (restartPingInterval params s).2
     ++ [Ev.postPlaying params.playSessionId])

/-- `reportPlaybackProgress` (jellyfinActions.ts lines 97–120): always
broadcast; when `reportToServer` is `false`, resolve immediately; otherwise
restart the ping interval, refresh `lastTranscoderPing` to the current time
`now`, and post the progress event. -/
def reportPlaybackProgress (state : PlaybackState) (params : PlaybackProgressInfo)
    (reportToServer : Bool) (broadcastEventName : String) (now : Nat)
    (s : ReporterState) : ReporterState × List Ev :=
  let bc := [Ev.broadcast broadcastEventName]
  if reportToServer = false then
    (s, bc)
  else
    ({ (restartPingInterval params s).1 with lastTranscoderPing := now },
     bc ++ (restartPingInterval params s).2 ++ [Ev.postProgress params.playSessionId])

/-- `reportPlaybackStopped` (jellyfinActions.ts lines 129–145): stop the ping
interval, broadcast `playbackstop`, post the stopped event — in that order. -/
def reportPlaybackStopped (state : PlaybackState) (params : PlaybackProgressInfo)
    (s : ReporterState) : ReporterState × List Ev :=
  ((stopPingInterval s).1,
   (stopPingInterval s).2
     ++ [Ev.broadcast "playbackstop", Ev.postStopped params.playSessionId])

/-- Reporter-level operations, used to describe every reachable reporter
state.  `tick` is the firing of the scheduled 1-second interval (a no-op when
no interval is scheduled); `mStop` is the reporter-visible part of
`playbackManager.stop` (the modelled `jellyfinActions.stop` report followed by
`stopPingInterval`, playbackManager.ts lines 277–288). -/
inductive ROp
  | rStart (params : PlaybackProgressInfo)
  | rProgress (params : PlaybackProgressInfo) (toServer : Bool) (now : Nat)
  | rStop (params : PlaybackProgressInfo)
  | tick (now : Nat)
  | mStop (sid : String)
  deriving DecidableEq, Repr

/-- One reporter operation.  A `tick` runs the callback closure of the
scheduled interval (which calls `pingTranscoder` with the captured
`reportingParams`). -/
def reporterStep (s : ReporterState) : ROp → ReporterState × List Ev
  | ROp.rStart p => reportPlaybackStart initialPlaybackState p s
  | ROp.rProgress p b now =>
      reportPlaybackProgress initialPlaybackState p b "playbackprogress" now s
  | ROp.rStop p => reportPlaybackStopped initialPlaybackState p s
  | ROp.tick now =>
      match s.scheduled with
      | [] => (s, [])
      | (_, p) :: _ => pingTranscoder p now s
  | ROp.mStop sid =>
      ((stopPingInterval s).1,
       [Ev.postStopped sid] ++ (stopPingInterval s).2 ++ [Ev.playerStop])

/-- Run a sequence of reporter operations, concatenating the event traces. -/
def runReporter (s : ReporterState) : List ROp → ReporterState × List Ev
  | [] => (s, [])
  | op :: rest =>
      ((runReporter (reporterStep s op).1 rest).1,
       (reporterStep s op).2 ++ (runReporter (reporterStep s op).1 rest).2)

/-- The fields of the `Items/.../PlaybackInfo` response that
`playItemInternal` inspects. -/
structure PlaybackInfoResponse where
  errorCode : Option String
  mediaSources : List MediaSourceInfo
  playSessionId : String
  deriving DecidableEq, Repr

/-- The field of the `LiveStreams/Open` response that `playItemInternal`
inspects. -/
structure LiveStreamResponse where
  mediaSource : Option MediaSourceInfo
  deriving DecidableEq, Repr

/-- How a `playItemInternal` call ends: handoff to `playMediaSource`
(`ok`), an error message shown via `showPlaybackInfoErrorMessage`
(`errorShown`), or the returned promise rejecting with an uncaught
exception (`rejected`). -/
inductive PlayOutcome
  | ok
  | errorShown (code : String)
  | rejected
  deriving DecidableEq, Repr

/-- Environment resolving the calls `playItemInternal` makes whose results it
inspects: the outcome of the two network requests, and the two
`maincontroller` helpers that are only imported by the code under
verification.

`getOptimalMediaSource` — modelled from the spec: selects the first candidate
media source compatible with the device profile, `none` when no candidate
qualifies (maincontroller.ts, not included under src/); kept opaque here
since the compatibility test lives outside the embedded code.

`checkDirectPlayFn` — modelled from the spec: `checkDirectPlay` re-validates
direct-play eligibility of the source it is given, updating that source's
direct-play flag in place (maincontroller.ts, not included under src/); kept
opaque as a source-to-source function. -/
structure NegotiationEnv where
  maxBitrate : Nat
  playbackInfoResult : Except Unit PlaybackInfoResponse
  liveStreamResult : Except Unit LiveStreamResponse
  getOptimalMediaSource : List MediaSourceInfo → Option MediaSourceInfo
  checkDirectPlayFn : MediaSourceInfo → MediaSourceInfo

/-- State owned by a `playbackManager` instance, together with the `window`
globals it reads and the reporter module state it drives. -/
structure ManagerState where
  playbackState : PlaybackState
  activePlaylist : List BaseItemDto
  activePlaylistIndex : Int
  windowCurrentPlaylistIndex : Int
  windowPlaylist : List BaseItemDto
  reporter : ReporterState

def ManagerState.init : ManagerState :=
  { playbackState := initialPlaybackState
    activePlaylist := []
    activePlaylistIndex := 0
    windowCurrentPlaylistIndex := -1
    windowPlaylist := []
    reporter := ReporterState.init }

/-- Modelled from the spec: `getNextPlaybackItemInfo` (src/helpers.ts, not
included under src/) computes the next playlist position deterministically
(+1, bounds-checked) from the `window` playlist globals and returns `none`
when no valid next item exists. -/
def getNextPlaybackItemInfo (s : ManagerState) : Option (Nat × BaseItemDto) :=
  let newIndex : Int := s.windowCurrentPlaylistIndex + 1
  if h : 0 ≤ newIndex ∧ newIndex.toNat < s.windowPlaylist.length then
    some (newIndex.toNat, s.windowPlaylist.get ⟨newIndex.toNat, h.2⟩)
  else
    none

/-- Modelled from the spec: `jellyfinActions.stop` (imported by
playbackManager.ts line 17 but not included under src/).  Per the spec,
`stop(continuing)` "issues the server-side 'stopped' report"; the report
carries the current session's `playSessionId`. -/
def jellyfinStop (ps : PlaybackState) : List Ev :=
  [Ev.postStopped ps.playSessionId]

/-- `playbackManager.stop` (playbackManager.ts lines 277–288): record the
`continuing` flag, issue the stop report, stop the ping interval, stop the
host player, clear the playlist and reset the index to `-1`. -/
def managerStop (continuing : Bool) (s : ManagerState) : ManagerState × List Ev :=
  let ps := { s.playbackState with playNextItemBool := continuing }
  ({ s with playbackState := ps
            reporter := (stopPingInterval s.reporter).1
            activePlaylist := []
            activePlaylistIndex := -1 },
   jellyfinStop ps ++ (stopPingInterval s.reporter).2 ++ [Ev.playerStop])

/-- `playbackManager.playMediaSource` (playbackManager.ts lines 228–275)
together with the `load` it calls (jellyfinActions.ts lines 193–218): reset
the playback scope, populate it from the negotiated session (the
`customData` produced by `createMediaInformation` carries the negotiated
`playSessionId` and item id), load the host player, and record the resolved
media source in `PlaybackMediaSource` and `mediaSource`. -/
def playMediaSource (playSessionId : String) (item : BaseItemDto)
    (mediaSource : MediaSourceInfo) (s : ManagerState) : ManagerState × List Ev :=
  let ps := resetPlaybackScope s.playbackState
  let ps := { ps with playSessionId := playSessionId
                      itemId := item.id
                      item := some item
                      mediaType := item.mediaType
                      PlaybackMediaSource := some mediaSource
                      mediaSource := some mediaSource }
  ({ s with playbackState := ps },
   [Ev.playerLoad mediaSource.id playSessionId])

/-- `playbackManager.playItemInternal` (playbackManager.ts lines 168–225).
A rejected `getPlaybackInfo` is caught by `broadcastConnectionErrorMessage`,
which makes `playbackInfo` `undefined`, so the subsequent `.ErrorCode` read
throws and the promise rejects.  A rejected `getLiveStream` is not caught and
the promise rejects; no alternative source is attempted. -/
def playItemInternal (env : NegotiationEnv) (item : BaseItemDto)
    (startPositionTicks : Nat) (s : ManagerState) :
    ManagerState × List Ev × PlayOutcome :=
  let s := { s with playbackState := { s.playbackState with isChangingStream := false } }
  match env.playbackInfoResult with
  | Except.error _ =>
      (s, [Ev.postPlaybackInfo item.id, Ev.broadcast "connectionError"],
       PlayOutcome.rejected)
  | Except.ok pi =>
      match pi.errorCode with
      | some code =>
          (s, [Ev.postPlaybackInfo item.id], PlayOutcome.errorShown code)
      | none =>
          match env.getOptimalMediaSource pi.mediaSources with
          | none =>
              (s, [Ev.postPlaybackInfo item.id],
               PlayOutcome.errorShown "NoCompatibleStream")
          | some mediaSource =>
              if mediaSource.requiresOpening then
                match env.liveStreamResult with
                | Except.error _ =>
                    (s, [Ev.postPlaybackInfo item.id, Ev.postLiveStreamOpen item.id],
                     PlayOutcome.rejected)
                | Except.ok openLiveStreamResult =>
                    match openLiveStreamResult.mediaSource with
                    | some opened =>
                        let checked := env.checkDirectPlayFn opened
                        let r1 := playMediaSource pi.playSessionId item checked s
                        (r1.1,
                         [Ev.postPlaybackInfo item.id, Ev.postLiveStreamOpen item.id,
                          Ev.checkDirectPlay opened.id] ++ r1.2,
                         PlayOutcome.ok)
                    | none =>
                        let r1 := playMediaSource pi.playSessionId item mediaSource s
                        (r1.1,
                         [Ev.postPlaybackInfo item.id, Ev.postLiveStreamOpen item.id]
                           ++ r1.2,
                         PlayOutcome.ok)
              else
                let r1 := playMediaSource pi.playSessionId item mediaSource s
                (r1.1, [Ev.postPlaybackInfo item.id] ++ r1.2, PlayOutcome.ok)

/-- Modelled from the spec: `maincontroller.onStopPlayerBeforePlaybackDone`
(not included under src/) completes pre-playback teardown for the item and
then begins negotiation, i.e. reaches `playItemInternal` for the same item
and options. -/
def onStopPlayerBeforePlaybackDone (env : NegotiationEnv) (item : BaseItemDto)
    (startPositionTicks : Nat) (s : ManagerState) :
    ManagerState × List Ev × PlayOutcome :=
  playItemInternal env item startPositionTicks s

/-- `playbackManager.playItem` (playbackManager.ts lines 156–166): when
`stopPlayer` is set, `await this.stop(true)` runs the whole stop sequence
before `onStopPlayerBeforePlaybackDone` starts the new negotiation. -/
def playItem (env : NegotiationEnv) (item : BaseItemDto)
    (startPositionTicks : Nat) (stopPlayer : Bool) (s : ManagerState) :
    ManagerState × List Ev × PlayOutcome :=
  if stopPlayer then
    let r1 := managerStop true s
    let r2 := onStopPlayerBeforePlaybackDone env item startPositionTicks r1.1
    (r2.1, r1.2 ++ r2.2.1, r2.2.2)
  else
    onStopPlayerBeforePlaybackDone env item startPositionTicks s

/-- `playbackManager.playNextItem` (playbackManager.ts lines 126–140). -/
def playNextItem (env : NegotiationEnv) (startPositionTicks : Nat)
    (stopPlayer : Bool) (s : ManagerState) : Bool × ManagerState × List Ev :=
  match getNextPlaybackItemInfo s with
  | some (index, item) =>
      let s := { s with activePlaylistIndex := (index : Int) }
      let r := playItem env item startPositionTicks stopPlayer s
      (true, r.1, r.2.1)
  | none => (false, s, [])

/-- `playbackManager.playPreviousItem` (playbackManager.ts lines 142–154).
`this.activePlaylist &&` is vacuous in JS (an array is always truthy), so the
guard is `activePlaylistIndex > 0`.  An out-of-range read of
`activePlaylist[...]` yields `undefined` in JS; it is modelled by a default
item, which the guarded claims never reach. -/
def playPreviousItem (env : NegotiationEnv) (startPositionTicks : Nat)
    (s : ManagerState) : Bool × ManagerState × List Ev :=
  if 0 < s.activePlaylistIndex then
    let newIndex := s.activePlaylistIndex - 1
    let s := { s with activePlaylistIndex := newIndex }
    let item := (s.activePlaylist.get? newIndex.toNat).getD ⟨"", none⟩
    let r := playItem env item startPositionTicks true s
    (true, r.1, r.2.1)
  else
    (false, s, [])

/-- Iterated `playNextItem` (discarding the returned flag), used to state the
frame property for repeated calls. -/
def playNextItemIter (env : NegotiationEnv) (startPositionTicks : Nat)
    (stopPlayer : Bool) : Nat → ManagerState → ManagerState
  | 0, s => s
  | n + 1, s =>
      playNextItemIter env startPositionTicks stopPlayer n
        (playNextItem env startPositionTicks stopPlayer s).2.1

/-- Iterated `playPreviousItem`. -/
def playPreviousItemIter (env : NegotiationEnv) (startPositionTicks : Nat) :
    Nat → ManagerState → ManagerState
  | 0, s => s
  | n + 1, s =>
      playPreviousItemIter env startPositionTicks n
        (playPreviousItem env startPositionTicks s).2.1

/-- The 10 MB limit of the Jellyfin bitrate test
(jellyfinActions.ts line 393). -/
def byteLimit : Nat := 10000000

/-- `detectBitrate` (jellyfinActions.ts lines 391–408), with an explicit
recursion budget `fuel` standing for the unbounded recursion of the source
(`none` = the budget ran out before the source would have returned).
`oracle n` is the bitrate measured by `getDownloadSpeed(n)` (always a
non-negative integer).  The float test `bitrate * (2 / 8.0) < numBytes` is
exact on these integers and is transcribed as `bitrate * 2 < numBytes * 8`;
`Math.round(bitrate * 0.8)` is transcribed as rounding `4 * bitrate / 5` to
the nearest integer. -/
def detectBitrate (oracle : Nat → Nat) : Nat → Nat → Option Nat
  | 0, _ => none
  | fuel + 1, numBytes0 =>
      let numBytes := if numBytes0 > byteLimit then byteLimit else numBytes0
      let bitrate := oracle numBytes
      if bitrate * 2 < numBytes * 8 ∨ numBytes ≥ byteLimit then
        some ((8 * bitrate + 5) / 10)
      else
        detectBitrate oracle fuel (numBytes * 2)

/-- The module-state well-formedness the reporter maintains: `pingInterval`
records exactly the handle of the single scheduled interval, if any, and
fresh handles are nonzero. -/
def reporterInv (r : ReporterState) : Prop :=
  r.nextHandle ≠ 0 ∧
  r.scheduled.map Prod.fst = (if r.pingInterval = 0 then [] else [r.pingInterval])

instance (r : ReporterState) : Decidable (reporterInv r) := by
  unfold reporterInv; infer_instance

/-- The timer-liveness history predicate the code actually realizes, read
from the most recent operation backwards: the interval is live exactly when
the most recent operation that touches the timer — a `reportPlaybackStart`, a
server-reporting `reportPlaybackProgress`, a `reportPlaybackStopped` or a
manager stop — is one of the two report calls and carried
`PlayMethod == Transcode`. -/
def timerLivePredAux : List ROp → Bool
  | [] => false
  | ROp.rStop _ :: _ => false
  | ROp.mStop _ :: _ => false
  | ROp.rStart p :: _ => decide (p.playMethod = some PlayMethod.transcode)
  | ROp.rProgress p true _ :: _ => decide (p.playMethod = some PlayMethod.transcode)
  | ROp.rProgress _ false _ :: rest => timerLivePredAux rest
  | ROp.tick _ :: rest => timerLivePredAux rest

def timerLivePred (ops : List ROp) : Bool := timerLivePredAux ops.reverse

/-- The claim's history predicate, verbatim: "the most recent
reportStart/reportProgress call carried PlayMethod == Transcode and no stop
has intervened" — counting local-only (`reportToServer = false`) progress
calls as reports. -/
def claimTimerPredAux : List ROp → Bool
  | [] => false
  | ROp.rStop _ :: _ => false
  | ROp.mStop _ :: _ => false
  | ROp.rStart p :: _ => decide (p.playMethod = some PlayMethod.transcode)
  | ROp.rProgress p _ _ :: _ => decide (p.playMethod = some PlayMethod.transcode)
  | ROp.tick _ :: rest => claimTimerPredAux rest

def claimTimerPred (ops : List ROp) : Bool := claimTimerPredAux ops.reverse

/-- The clock values carried by the operations that read the clock
(`reportPlaybackProgress` and interval ticks), in order. -/
def opTimes : List ROp → List Nat
  | [] => []
  | ROp.rProgress _ _ now :: rest => now :: opTimes rest
  | ROp.tick now :: rest => now :: opTimes rest
  | ROp.rStart _ :: rest => opTimes rest
  | ROp.rStop _ :: rest => opTimes rest
  | ROp.mStop _ :: rest => opTimes rest

/-- Whether a tick at instant `now` reaches the ping request: an interval is
scheduled and at least 5000 ms have passed since `lastTranscoderPing`. -/
def tickFires (s : ReporterState) (now : Nat) : Bool :=
  !s.scheduled.isEmpty && decide (5000 ≤ now - s.lastTranscoderPing)

/-- The instants at which ping requests are issued along a run. -/
def runPings (s : ReporterState) : List ROp → List Nat
  | [] => []
  | ROp.tick now :: rest =>
      if tickFires s now then
        now :: runPings (reporterStep s (ROp.tick now)).1 rest
      else
        runPings (reporterStep s (ROp.tick now)).1 rest
  | op :: rest => runPings (reporterStep s op).1 rest

/-- The list is sorted in non-decreasing order. -/
def nondecreasing : List Nat → Bool
  | [] => true
  | [_] => true
  | a :: b :: rest => decide (a ≤ b) && nondecreasing (b :: rest)

/-- Consecutive entries are at least 5000 ms apart. -/
def sep5000 : List Nat → Bool
  | [] => true
  | [_] => true
  | a :: b :: rest => decide (a + 5000 ≤ b) && sep5000 (b :: rest)

/-- Reporting parameters of the C3 ping-coalescing scenario. -/
def c3Params : PlaybackProgressInfo :=
  { playMethod := some PlayMethod.transcode, playSessionId := "session-a" }

/-- The C3 scenario: server-reported progress at t=0 ms and t=3000 ms, ping
ticks at t=1000 ms and t=6000 ms. -/
def c3Scenario : List ROp :=
  [ROp.rProgress c3Params true 0, ROp.tick 1000,
   ROp.rProgress c3Params true 3000, ROp.tick 6000]

/-- `detectBitrate`, started at `numBytes = 0`, returns under no recursion
budget whatsoever and for no measurement oracle: the source recursion never
reaches a base case from 0 (`0` doubles to `0`, the measured bitrate is
non-negative so `bitrate * 0.25 < 0` is false, and `0 ≥ 10000000` is false). -/
def detectBitrateDivergesAtZero : Prop :=
  ∀ (oracle : Nat → Nat) (fuel : Nat), detectBitrate oracle fuel 0 = none

/-- A concrete negotiation environment in which every network call fails. -/
def failingEnv : NegotiationEnv :=
  { maxBitrate := 0
    playbackInfoResult := Except.error ()
    liveStreamResult := Except.error ()
    getOptimalMediaSource := fun _ => none
    checkDirectPlayFn := fun m => m }

/-- A live source requiring an explicit open step. -/
def c6Source : MediaSourceInfo :=
  { id := "tuner", requiresOpening := true, supportsDirectPlay := false,
    openToken := some "tok" }

/-- The source description returned by the live-stream open. -/
def c6Opened : MediaSourceInfo :=
  { id := "opened", requiresOpening := false, supportsDirectPlay := false,
    openToken := none }

/-- A playback-info response offering only the live source. -/
def c6Pi : PlaybackInfoResponse :=
  { errorCode := none, mediaSources := [c6Source], playSessionId := "ps-1" }

/-- A concrete environment in which negotiation selects `c6Source`, the live
open succeeds with `c6Opened`, and the direct-play re-check marks its
argument direct-playable. -/
def c6Env : NegotiationEnv :=
  { maxBitrate := 3000000
    playbackInfoResult := Except.ok c6Pi
    liveStreamResult := Except.ok { mediaSource := some c6Opened }
    getOptimalMediaSource := fun l => l.head?
    checkDirectPlayFn := fun m => { m with supportsDirectPlay := true } }

theorem stopPingInterval_of_inv (s : ReporterState) (h : reporterInv s) :
    stopPingInterval s =
      ({ s with pingInterval := 0, scheduled := [] },
       if s.pingInterval = 0 then [] else [Ev.timerCleared s.pingInterval]) := by
  obtain ⟨-, h2⟩ := h
  by_cases hp : s.pingInterval = 0
  · rw [hp, if_pos rfl] at h2
    have hsch : s.scheduled = [] := List.map_eq_nil_iff.mp h2
    cases s
    simp_all [stopPingInterval]
  · rw [if_neg hp] at h2
    have hsch : s.scheduled.filter (fun q => q.1 ≠ s.pingInterval) = [] := by
      match hs : s.scheduled with
      | [] => simp
      | a :: l =>
        rw [hs] at h2
        simp only [List.map_cons, List.cons.injEq] at h2
        obtain ⟨ha, hl⟩ := h2
        have hl0 : l = [] := List.map_eq_nil_iff.mp hl
        simp [hl0, ha]
    simp only [stopPingInterval, clearIntervalFn]
    rw [if_pos hp, hsch, if_neg hp]

theorem reporterInv_stopPingInterval (s : ReporterState) (h : reporterInv s) :
    reporterInv (stopPingInterval s).1 := by
  rw [stopPingInterval_of_inv s h]
  exact ⟨h.1, by simp⟩

theorem restartPingInterval_of_inv (p : PlaybackProgressInfo) (s : ReporterState)
    (h : reporterInv s) :
    restartPingInterval p s =
      if p.playMethod = some PlayMethod.transcode then
        ({ s with pingInterval := s.nextHandle,
                  scheduled := [(s.nextHandle, p)],
                  nextHandle := s.nextHandle + 1 },
         (if s.pingInterval = 0 then [] else [Ev.timerCleared s.pingInterval])
           ++ [Ev.timerSet s.nextHandle])
      else
        ({ s with pingInterval := 0, scheduled := [] },
         if s.pingInterval = 0 then [] else [Ev.timerCleared s.pingInterval]) := by
  by_cases hp : p.playMethod = some PlayMethod.transcode <;>
    simp [restartPingInterval, stopPingInterval_of_inv s h, hp, setIntervalFn]

theorem reporterInv_restartPingInterval (p : PlaybackProgressInfo)
    (s : ReporterState) (h : reporterInv s) :
    reporterInv (restartPingInterval p s).1 := by
  rw [restartPingInterval_of_inv p s h]
  by_cases hp : p.playMethod = some PlayMethod.transcode
  · rw [if_pos hp]
    exact ⟨Nat.succ_ne_zero _, by simp [h.1]⟩
  · rw [if_neg hp]
    exact ⟨h.1, by simp⟩

theorem pingTranscoder_fields (p : PlaybackProgressInfo) (now : Nat)
    (s : ReporterState) :
    (pingTranscoder p now s).1.pingInterval = s.pingInterval ∧
    (pingTranscoder p now s).1.scheduled = s.scheduled ∧
    (pingTranscoder p now s).1.nextHandle = s.nextHandle := by
  unfold pingTranscoder
  by_cases hlt : now - s.lastTranscoderPing < 5000 <;> simp [hlt]

theorem reporterInv_step (s : ReporterState) (op : ROp) (h : reporterInv s) :
    reporterInv (reporterStep s op).1 := by
  cases op with
  | rStart p =>
      exact reporterInv_restartPingInterval p s h
  | rProgress p b now =>
      cases b with
      | false => exact h
      | true =>
          have h1 := reporterInv_restartPingInterval p s h
          exact ⟨h1.1, h1.2⟩
  | rStop p =>
      exact reporterInv_stopPingInterval s h
  | tick now =>
      cases hs : s.scheduled with
      | nil => simpa [reporterStep, hs] using h
      | cons a l =>
          have hf := pingTranscoder_fields a.2 now s
          unfold reporterInv at h ⊢
          simp only [reporterStep, hs, hf.1, hf.2.1, hf.2.2]
          rw [← hs]
          exact h
  | mStop sid =>
      exact reporterInv_stopPingInterval s h

theorem runReporter_append (l1 l2 : List ROp) (s : ReporterState) :
    runReporter s (l1 ++ l2) =
      ((runReporter (runReporter s l1).1 l2).1,
       (runReporter s l1).2 ++ (runReporter (runReporter s l1).1 l2).2) := by
  induction l1 generalizing s with
  | nil => simp [runReporter]
  | cons op rest ih => simp [runReporter, ih, List.append_assoc]

theorem runReporter_one (s : ReporterState) (op : ROp) :
    runReporter s [op] = reporterStep s op := by
  simp [runReporter]

theorem reporterInv_run (ops : List ROp) :
    ∀ s, reporterInv s → reporterInv (runReporter s ops).1 := by
  induction ops with
  | nil => exact fun s h => h
  | cons op rest ih => exact fun s h => ih _ (reporterInv_step s op h)

theorem inv_scheduled_length (r : ReporterState) (h : reporterInv r) :
    r.scheduled.length ≤ 1 := by
  have hlen := congrArg List.length h.2
  rw [List.length_map] at hlen
  by_cases hp : r.pingInterval = 0
  · rw [if_pos hp] at hlen
    simp only [List.length_nil] at hlen
    omega
  · rw [if_neg hp] at hlen
    simp only [List.length_singleton] at hlen
    omega

theorem step_rStart_scheduled (p : PlaybackProgressInfo) (s : ReporterState)
    (h : reporterInv s) :
    (reporterStep s (ROp.rStart p)).1.scheduled =
      if p.playMethod = some PlayMethod.transcode then [(s.nextHandle, p)] else [] := by
  show (restartPingInterval p s).1.scheduled = _
  rw [restartPingInterval_of_inv p s h]
  by_cases hp : p.playMethod = some PlayMethod.transcode <;> simp [hp]

theorem step_rProgress_true_scheduled (p : PlaybackProgressInfo) (now : Nat)
    (s : ReporterState) (h : reporterInv s) :
    (reporterStep s (ROp.rProgress p true now)).1.scheduled =
      if p.playMethod = some PlayMethod.transcode then [(s.nextHandle, p)] else [] := by
  show (restartPingInterval p s).1.scheduled = _
  rw [restartPingInterval_of_inv p s h]
  by_cases hp : p.playMethod = some PlayMethod.transcode <;> simp [hp]

theorem step_tick_scheduled (now : Nat) (s : ReporterState) :
    (reporterStep s (ROp.tick now)).1.scheduled = s.scheduled := by
  cases hs : s.scheduled with
  | nil => simp [reporterStep, hs]
  | cons a l =>
      have hf := pingTranscoder_fields a.2 now s
      simp only [reporterStep, hs, hf.2.1]

theorem step_rStop_scheduled (p : PlaybackProgressInfo) (s : ReporterState)
    (h : reporterInv s) :
    (reporterStep s (ROp.rStop p)).1.scheduled = [] := by
  show (stopPingInterval s).1.scheduled = _
  rw [stopPingInterval_of_inv s h]

theorem step_mStop_scheduled (sid : String) (s : ReporterState)
    (h : reporterInv s) :
    (reporterStep s (ROp.mStop sid)).1.scheduled = [] := by
  show (stopPingInterval s).1.scheduled = _
  rw [stopPingInterval_of_inv s h]

theorem timerLive_iff (ops : List ROp) :
    (runReporter ReporterState.init ops).1.scheduled ≠ [] ↔
      timerLivePred ops = true := by
  induction ops using List.reverseRecOn with
  | nil => simp [runReporter, timerLivePred, timerLivePredAux, ReporterState.init]
  | append_singleton l op ih =>
      have hinv : reporterInv (runReporter ReporterState.init l).1 :=
        reporterInv_run l ReporterState.init (by decide)
      rw [runReporter_append]
      have h1 : (runReporter (runReporter ReporterState.init l).1 [op]).1 =
          (reporterStep (runReporter ReporterState.init l).1 op).1 := by
        rw [runReporter_one]
      simp only [h1]
      unfold timerLivePred at ih ⊢
      rw [List.reverse_append, List.reverse_singleton, List.singleton_append]
      cases op with
      | rStart p =>
          rw [step_rStart_scheduled p _ hinv]
          by_cases hp : p.playMethod = some PlayMethod.transcode <;>
            simp [timerLivePredAux, hp]
      | rProgress p b now =>
          cases b with
          | true =>
              rw [step_rProgress_true_scheduled p now _ hinv]
              by_cases hp : p.playMethod = some PlayMethod.transcode <;>
                simp [timerLivePredAux, hp]
          | false =>
              show (runReporter ReporterState.init l).1.scheduled ≠ [] ↔ _
              rw [ih]
              rfl
      | rStop p =>
          rw [step_rStop_scheduled p _ hinv]
          simp [timerLivePredAux]
      | tick now =>
          rw [step_tick_scheduled]
          rw [ih]
          rfl
      | mStop sid =>
          rw [step_mStop_scheduled sid _ hinv]
          simp [timerLivePredAux]

theorem stopPing_no_ping (s : ReporterState) :
    (stopPingInterval s).2.countP Ev.isPing = 0 := by
  unfold stopPingInterval
  by_cases hq : s.pingInterval = 0 <;> simp [hq, clearIntervalFn, Ev.isPing]

theorem restartPing_no_ping (p : PlaybackProgressInfo) (s : ReporterState) :
    (restartPingInterval p s).2.countP Ev.isPing = 0 := by
  unfold restartPingInterval
  by_cases hp : p.playMethod = some PlayMethod.transcode <;>
    simp [hp, setIntervalFn, List.countP_append, stopPing_no_ping s, Ev.isPing]

theorem step_ping_count (s : ReporterState) (op : ROp) :
    (reporterStep s op).2.countP Ev.isPing =
      match op with
      | ROp.tick now =>
          if s.scheduled ≠ [] ∧ 5000 ≤ now - s.lastTranscoderPing then 1 else 0
      | _ => 0 := by
  cases op with
  | rStart p =>
      simp [reporterStep, reportPlaybackStart, List.countP_append,
            restartPing_no_ping, Ev.isPing]
  | rProgress p b now =>
      cases b with
      | false => simp [reporterStep, reportPlaybackProgress, Ev.isPing]
      | true =>
          simp [reporterStep, reportPlaybackProgress, List.countP_append,
                restartPing_no_ping, Ev.isPing]
  | rStop p =>
      simp [reporterStep, reportPlaybackStopped, List.countP_append,
            stopPing_no_ping, Ev.isPing]
  | tick now =>
      cases hs : s.scheduled with
      | nil => simp [reporterStep, hs]
      | cons a l =>
          by_cases hlt : now - s.lastTranscoderPing < 5000
          · have h5 : ¬5000 ≤ now - s.lastTranscoderPing := by omega
            simp [reporterStep, hs, pingTranscoder, hlt, h5]
          · have h5 : 5000 ≤ now - s.lastTranscoderPing := by omega
            simp [reporterStep, hs, pingTranscoder, hlt, h5, Ev.isPing]
  | mStop sid =>
      simp [reporterStep, List.countP_append, stopPing_no_ping, Ev.isPing]

theorem run_ticks_of_empty (ts : List Nat) (s : ReporterState)
    (h : s.scheduled = []) : runReporter s (ts.map ROp.tick) = (s, []) := by
  induction ts with
  | nil => rfl
  | cons t ts ih =>
      have hstep : reporterStep s (ROp.tick t) = (s, []) := by
        simp [reporterStep, h]
      simp [runReporter, hstep, ih]

theorem nondecreasing_drop_mid (a b : Nat) (l : List Nat)
    (h : nondecreasing (a :: b :: l) = true) : nondecreasing (a :: l) = true := by
  cases l with
  | nil => rfl
  | cons c l' =>
      simp only [nondecreasing, Bool.and_eq_true, decide_eq_true_eq] at h ⊢
      exact ⟨le_trans h.1 h.2.1, h.2.2⟩

theorem nondecreasing_tail (a : Nat) (l : List Nat)
    (h : nondecreasing (a :: l) = true) : nondecreasing l = true := by
  cases l with
  | nil => rfl
  | cons b l' =>
      simp only [nondecreasing, Bool.and_eq_true] at h
      exact h.2

theorem nondecreasing_zero_cons (l : List Nat) (h : nondecreasing l = true) :
    nondecreasing (0 :: l) = true := by
  cases l with
  | nil => rfl
  | cons b l' =>
      simp only [nondecreasing, Bool.and_eq_true, decide_eq_true_eq]
      exact ⟨Nat.zero_le b, h⟩

theorem nondecreasing_head_le (a b : Nat) (l : List Nat)
    (h : nondecreasing (a :: b :: l) = true) : a ≤ b := by
  simp only [nondecreasing, Bool.and_eq_true, decide_eq_true_eq] at h
  exact h.1

theorem sep5000_head_mono (a b : Nat) (l : List Nat) (hab : a ≤ b)
    (h : sep5000 (b :: l) = true) : sep5000 (a :: l) = true := by
  cases l with
  | nil => rfl
  | cons c l' =>
      simp only [sep5000, Bool.and_eq_true, decide_eq_true_eq] at h ⊢
      exact ⟨by omega, h.2⟩

theorem sep5000_tail (a : Nat) (l : List Nat)
    (h : sep5000 (a :: l) = true) : sep5000 l = true := by
  cases l with
  | nil => rfl
  | cons b l' =>
      simp only [sep5000, Bool.and_eq_true] at h
      exact h.2

theorem stopPing_last (s : ReporterState) :
    (stopPingInterval s).1.lastTranscoderPing = s.lastTranscoderPing := by
  unfold stopPingInterval
  by_cases hq : s.pingInterval = 0 <;> simp [hq, clearIntervalFn]

theorem restartPing_last (p : PlaybackProgressInfo) (s : ReporterState) :
    (restartPingInterval p s).1.lastTranscoderPing = s.lastTranscoderPing := by
  unfold restartPingInterval
  by_cases hp : p.playMethod = some PlayMethod.transcode <;>
    simp [hp, setIntervalFn, stopPing_last]

theorem tickFires_iff (s : ReporterState) (now : Nat) :
    tickFires s now = true ↔
      (s.scheduled ≠ [] ∧ 5000 ≤ now - s.lastTranscoderPing) := by
  unfold tickFires
  cases s.scheduled <;> simp

theorem step_tick_not_fires (now : Nat) (s : ReporterState)
    (h : tickFires s now = false) : reporterStep s (ROp.tick now) = (s, []) := by
  unfold tickFires at h
  cases hs : s.scheduled with
  | nil => simp [reporterStep, hs]
  | cons a l =>
      rw [hs] at h
      simp only [List.isEmpty_cons, Bool.not_false, Bool.true_and,
        decide_eq_false_iff_not, not_le] at h
      simp [reporterStep, hs, pingTranscoder, h]

theorem step_tick_fires_fst (now : Nat) (s : ReporterState)
    (h : tickFires s now = true) :
    (reporterStep s (ROp.tick now)).1 = { s with lastTranscoderPing := now } := by
  unfold tickFires at h
  cases hs : s.scheduled with
  | nil => rw [hs] at h; simp at h
  | cons a l =>
      rw [hs] at h
      simp only [List.isEmpty_cons, Bool.not_false, Bool.true_and,
        decide_eq_true_eq] at h
      have hlt : ¬now - s.lastTranscoderPing < 5000 := by omega
      simp [reporterStep, hs, pingTranscoder, hlt]

theorem runPings_sep (ops : List ROp) :
    ∀ s : ReporterState,
      nondecreasing (s.lastTranscoderPing :: opTimes ops) = true →
      sep5000 (s.lastTranscoderPing :: runPings s ops) = true := by
  induction ops with
  | nil => intro s _; rfl
  | cons op rest ih =>
      intro s h
      cases op with
      | rStart p =>
          have hlast : (reporterStep s (ROp.rStart p)).1.lastTranscoderPing =
              s.lastTranscoderPing := restartPing_last p s
          have h' : nondecreasing
              ((reporterStep s (ROp.rStart p)).1.lastTranscoderPing ::
                opTimes rest) = true := by
            rw [hlast]; exact h
          have := ih _ h'
          rw [hlast] at this
          exact this
      | rStop p =>
          have hlast : (reporterStep s (ROp.rStop p)).1.lastTranscoderPing =
              s.lastTranscoderPing := stopPing_last s
          have h' : nondecreasing
              ((reporterStep s (ROp.rStop p)).1.lastTranscoderPing ::
                opTimes rest) = true := by
            rw [hlast]; exact h
          have := ih _ h'
          rw [hlast] at this
          exact this
      | mStop sid =>
          have hlast : (reporterStep s (ROp.mStop sid)).1.lastTranscoderPing =
              s.lastTranscoderPing := stopPing_last s
          have h' : nondecreasing
              ((reporterStep s (ROp.mStop sid)).1.lastTranscoderPing ::
                opTimes rest) = true := by
            rw [hlast]; exact h
          have := ih _ h'
          rw [hlast] at this
          exact this
      | rProgress p b now =>
          cases b with
          | false =>
              have h' : nondecreasing (s.lastTranscoderPing :: opTimes rest) = true :=
                nondecreasing_drop_mid _ _ _ h
              exact ih s h'
          | true =>
              have hle : s.lastTranscoderPing ≤ now := nondecreasing_head_le _ _ _ h
              have hlast : (reporterStep s (ROp.rProgress p true now)).1.lastTranscoderPing
                  = now := rfl
              have h' : nondecreasing
                  ((reporterStep s (ROp.rProgress p true now)).1.lastTranscoderPing ::
                    opTimes rest) = true := by
                rw [hlast]
                exact nondecreasing_tail _ _ h
              have hsep := ih _ h'
              rw [hlast] at hsep
              exact sep5000_head_mono _ _ _ hle hsep
      | tick now =>
          by_cases hf : tickFires s now = true
          · have hle : s.lastTranscoderPing ≤ now := nondecreasing_head_le _ _ _ h
            have hge : 5000 ≤ now - s.lastTranscoderPing :=
              ((tickFires_iff s now).mp hf).2
            have hlast : (reporterStep s (ROp.tick now)).1.lastTranscoderPing = now := by
              rw [step_tick_fires_fst now s hf]
            have h' : nondecreasing
                ((reporterStep s (ROp.tick now)).1.lastTranscoderPing ::
                  opTimes rest) = true := by
              rw [hlast]
              exact nondecreasing_tail _ _ h
            have hsep := ih _ h'
            rw [hlast] at hsep
            show sep5000 (s.lastTranscoderPing :: runPings s (ROp.tick now :: rest)) = true
            have hrp : runPings s (ROp.tick now :: rest) =
                now :: runPings (reporterStep s (ROp.tick now)).1 rest := by
              simp [runPings, hf]
            rw [hrp]
            simp only [sep5000, Bool.and_eq_true, decide_eq_true_eq]
            exact ⟨by omega, hsep⟩
          · have hf0 : tickFires s now = false := by
              cases hxx : tickFires s now
              · rfl
              · exact absurd hxx hf
            have hstep : reporterStep s (ROp.tick now) = (s, []) :=
              step_tick_not_fires now s hf0
            have h' : nondecreasing (s.lastTranscoderPing :: opTimes rest) = true :=
              nondecreasing_drop_mid _ _ _ h
            have hsep := ih s h'
            have hrp : runPings s (ROp.tick now :: rest) =
                runPings (reporterStep s (ROp.tick now)).1 rest := by
              simp [runPings, hf0]
            rw [hrp, hstep]
            exact hsep

theorem ping_count_eq_runPings (ops : List ROp) :
    ∀ s : ReporterState,
      (runReporter s ops).2.countP Ev.isPing = (runPings s ops).length := by
  induction ops with
  | nil => intro s; rfl
  | cons op rest ih =>
      intro s
      have hev : (runReporter s (op :: rest)).2 =
          (reporterStep s op).2 ++ (runReporter (reporterStep s op).1 rest).2 := rfl
      rw [hev, List.countP_append, step_ping_count, ih]
      cases op with
      | rStart p => simp [runPings]
      | rProgress p b now => simp [runPings]
      | rStop p => simp [runPings]
      | mStop sid => simp [runPings]
      | tick now =>
          by_cases hf : tickFires s now = true
          · have hc := (tickFires_iff s now).mp hf
            simp [runPings, hf, hc, Nat.add_comm]
          · have hf0 : tickFires s now = false := by
              cases hxx : tickFires s now
              · rfl
              · exact absurd hxx hf
            have hc : ¬(s.scheduled ≠ [] ∧ 5000 ≤ now - s.lastTranscoderPing) := by
              intro hcc
              exact hf ((tickFires_iff s now).mpr hcc)
            simp [runPings, hf0, hc]

theorem run_snoc_fst (ops : List ROp) (op : ROp) (s : ReporterState) :
    (runReporter s (ops ++ [op])).1 =
      (reporterStep (runReporter s ops).1 op).1 := by
  rw [runReporter_append]
  show (runReporter (runReporter s ops).1 [op]).1 = _
  rw [runReporter_one]

theorem run_snoc_snd (ops : List ROp) (op : ROp) (s : ReporterState) :
    (runReporter s (ops ++ [op])).2 =
      (runReporter s ops).2 ++ (reporterStep (runReporter s ops).1 op).2 := by
  rw [runReporter_append]
  show (runReporter s ops).2 ++ (runReporter (runReporter s ops).1 [op]).2 = _
  rw [runReporter_one]

/-- C2 (counterexample): the claim's "if and only if" fails at a reachable
reporter state.  After the single call
`reportPlaybackProgress(state, params, reportToServer = false)` with
`params.PlayMethod == Transcode`, the most recent
reportStart/reportProgress call carried `Transcode` and no stop has
intervened, yet no keep-alive timer is live: a local-only progress call
returns before `restartPingInterval`. -/
theorem C2_counterexample :
    (runReporter ReporterState.init
        [ROp.rProgress { playMethod := some PlayMethod.transcode,
                         playSessionId := "session-b" } false 0]).1.scheduled = []
    ∧ claimTimerPred
        [ROp.rProgress { playMethod := some PlayMethod.transcode,
                         playSessionId := "session-b" } false 0] = true :=
  ⟨rfl, rfl⟩

/-- C2 (amended): at every reachable state of the reporter, the keep-alive
ping timer is live if and only if the most recent `reportPlaybackStart` or
server-reporting `reportPlaybackProgress` (`reportToServer = true`) call
carried `PlayMethod == Transcode` and no stop has intervened (local-only
progress calls leave the timer untouched); at most one timer is ever live,
and `reportPlaybackStopped` as well as the manager's `stop` always leave
zero live timers. -/
theorem C2_timer_invariant (ops : List ROp) :
    ((runReporter ReporterState.init ops).1.scheduled ≠ [] ↔
        timerLivePred ops = true)
    ∧ (runReporter ReporterState.init ops).1.scheduled.length ≤ 1
    ∧ (∀ p, (runReporter ReporterState.init
          (ops ++ [ROp.rStop p])).1.scheduled = [])
    ∧ (∀ sid, (runReporter ReporterState.init
          (ops ++ [ROp.mStop sid])).1.scheduled = []) := by
  have hinv : reporterInv (runReporter ReporterState.init ops).1 :=
    reporterInv_run ops ReporterState.init (by decide)
  refine ⟨timerLive_iff ops, inv_scheduled_length _ hinv, ?_, ?_⟩
  · intro p
    rw [run_snoc_fst]
    exact step_rStop_scheduled p _ hinv
  · intro sid
    rw [run_snoc_fst]
    exact step_mStop_scheduled sid _ hinv

/-- C3 (counterexample): in the claim's own scenario — server-reported
progress at t=0 ms and t=3000 ms, ticks at t=1000 ms and t=6000 ms — the code
issues no ping at all: the t=3000 progress report refreshed
`lastTranscoderPing` (second conjunct), so the t=6000 tick is still inside
the 5-second window, whereas the claim says that tick issues the ping. -/
theorem C3_counterexample :
    (runReporter ReporterState.init c3Scenario).2.countP Ev.isPing = 0
    ∧ (runReporter ReporterState.init c3Scenario).1.lastTranscoderPing = 3000 := by
  exact ⟨by decide, by decide⟩

/-- C3 (amended): a ping-timer tick calls the ping endpoint if and only if a
timer is scheduled and at least 5000 ms have elapsed since the last event
that refreshed `lastTranscoderPing` (a ping or a server-reported progress
report).  In the scenario with server progress at t=0 and t=3000 ms, the
t=1000 tick is suppressed and so is the t=6000 one (the t=3000 report
refreshed the timestamp); a tick 5000 ms after the last refresh (t=8000)
issues the ping. -/
theorem C3_ping_coalescing :
    (∀ (ops : List ROp) (now : Nat),
      (runReporter ReporterState.init (ops ++ [ROp.tick now])).2.countP Ev.isPing =
        (runReporter ReporterState.init ops).2.countP Ev.isPing +
          (if (runReporter ReporterState.init ops).1.scheduled ≠ [] ∧
              5000 ≤ now - (runReporter ReporterState.init ops).1.lastTranscoderPing
           then 1 else 0))
    ∧ (runReporter ReporterState.init
        (c3Scenario.take 2)).2.countP Ev.isPing = 0
    ∧ (runReporter ReporterState.init c3Scenario).2.countP Ev.isPing = 0
    ∧ (runReporter ReporterState.init
        (c3Scenario ++ [ROp.tick 8000])).2.countP Ev.isPing = 1 := by
  refine ⟨?_, by decide, by decide, by decide⟩
  intro ops now
  rw [run_snoc_snd, List.countP_append, step_ping_count]

/-- C5: `reportPlaybackStopped` performs its effects in the order: cancel
the keep-alive timer (the only events preceding the broadcast are
timer-clear events), then broadcast `playbackstop`, then post the stop event
to the server; and once a stop report has been initiated, no subsequent
timer tick issues a ping network call. -/
theorem C5_reportStop_order :
    (∀ (st : PlaybackState) (p : PlaybackProgressInfo) (s : ReporterState),
      (∃ pre, (reportPlaybackStopped st p s).2 =
          pre ++ [Ev.broadcast "playbackstop", Ev.postStopped p.playSessionId]
        ∧ ∀ e ∈ pre, Ev.isTimerCleared e = true)
      ∧ (reportPlaybackStopped st p s).1.pingInterval = 0)
    ∧ (∀ (ops : List ROp) (p : PlaybackProgressInfo) (ticks : List Nat),
        (runReporter ReporterState.init
            (ops ++ ROp.rStop p :: ticks.map ROp.tick)).2.countP Ev.isPing =
          (runReporter ReporterState.init ops).2.countP Ev.isPing) := by
  constructor
  · intro st p s
    constructor
    · refine ⟨(stopPingInterval s).2, rfl, ?_⟩
      intro e he
      unfold stopPingInterval at he
      by_cases hq : s.pingInterval = 0
      · simp [hq] at he
      · simp only [hq, clearIntervalFn, if_true, ne_eq, not_false_eq_true,
          List.mem_singleton, if_pos] at he
        rw [he]
        rfl
    · show (stopPingInterval s).1.pingInterval = 0
      unfold stopPingInterval
      by_cases hq : s.pingInterval = 0 <;> simp [hq, clearIntervalFn]
  · intro ops p ticks
    have hassoc : ops ++ ROp.rStop p :: ticks.map ROp.tick =
        (ops ++ [ROp.rStop p]) ++ ticks.map ROp.tick := by
      simp
    rw [hassoc, runReporter_append]
    have hinv : reporterInv (runReporter ReporterState.init ops).1 :=
      reporterInv_run ops ReporterState.init (by decide)
    have hsched : (runReporter ReporterState.init
        (ops ++ [ROp.rStop p])).1.scheduled = [] := by
      rw [run_snoc_fst]
      exact step_rStop_scheduled p _ hinv
    rw [run_ticks_of_empty _ _ hsched]
    show ((runReporter ReporterState.init (ops ++ [ROp.rStop p])).2
        ++ []).countP Ev.isPing = _
    rw [List.append_nil, run_snoc_snd, List.countP_append, step_ping_count]
    simp

/-- C8: `reportPlaybackProgress` always broadcasts locally; with
`reportToServer = false` it resolves with no server post, no timer restart
and no timestamp update (the reporter state is returned unchanged); with
`reportToServer = true` it restarts the keep-alive timer, sets
`lastTranscoderPing` to the current time and posts the progress event — so a
server-reporting progress call alone determines timer liveness, while a
local-only one leaves it as it was. -/
theorem C8_reportProgress (st : PlaybackState) (p : PlaybackProgressInfo)
    (bn : String) (now : Nat) (s : ReporterState) :
    reportPlaybackProgress st p false bn now s = (s, [Ev.broadcast bn])
    ∧ reportPlaybackProgress st p true bn now s =
        ({ (restartPingInterval p s).1 with lastTranscoderPing := now },
         [Ev.broadcast bn] ++ (restartPingInterval p s).2
           ++ [Ev.postProgress p.playSessionId])
    ∧ (∀ ops, timerLivePred (ops ++ [ROp.rProgress p true now]) =
        decide (p.playMethod = some PlayMethod.transcode))
    ∧ (∀ ops, timerLivePred (ops ++ [ROp.rProgress p false now]) =
        timerLivePred ops) := by
  refine ⟨rfl, rfl, ?_, ?_⟩
  · intro ops
    unfold timerLivePred
    rw [List.reverse_append]
    rfl
  · intro ops
    unfold timerLivePred
    rw [List.reverse_append]
    rfl

/-- C9: `pingTranscoder` refreshes `lastTranscoderPing` to the tick's
instant whenever it issues a ping (the state is fixed before the request, so
a failed request still counts as recent), and a suppressed tick leaves the
state untouched; consequently, along any run whose clock readings are
non-decreasing, any two issued pings are at least 5000 ms apart. -/
theorem C9_ping_spacing (ops : List ROp)
    (h : nondecreasing (opTimes ops) = true) :
    sep5000 (runPings ReporterState.init ops) = true
    ∧ (runReporter ReporterState.init ops).2.countP Ev.isPing =
        (runPings ReporterState.init ops).length
    ∧ (∀ (p : PlaybackProgressInfo) (now : Nat) (s : ReporterState),
        (now - s.lastTranscoderPing < 5000 → pingTranscoder p now s = (s, []))
        ∧ ((pingTranscoder p now s).2 ≠ [] →
            (pingTranscoder p now s).1.lastTranscoderPing = now)) := by
  refine ⟨?_, ping_count_eq_runPings ops _, ?_⟩
  · have h0 : nondecreasing
        (ReporterState.init.lastTranscoderPing :: opTimes ops) = true :=
      nondecreasing_zero_cons _ h
    exact sep5000_tail _ _ (runPings_sep ops _ h0)
  · intro p now s
    constructor
    · intro hlt
      simp [pingTranscoder, hlt]
    · intro hne
      by_cases hlt : now - s.lastTranscoderPing < 5000
      · exact absurd (by simp [pingTranscoder, hlt]) hne
      · simp [pingTranscoder, hlt]

/-- C9 witness: a concrete monotone run — a transcode progress report at
t=0 and ticks at t=6000, t=7000 and t=12000 ms — satisfies the hypothesis,
and its issued pings (t=6000 and t=12000) are 5000 ms apart. -/
theorem C9_ping_spacing_witness :
    nondecreasing (opTimes [ROp.rProgress c3Params true 0, ROp.tick 6000,
        ROp.tick 7000, ROp.tick 12000]) = true
    ∧ sep5000 (runPings ReporterState.init [ROp.rProgress c3Params true 0,
        ROp.tick 6000, ROp.tick 7000, ROp.tick 12000]) = true :=
  ⟨by decide,
   (C9_ping_spacing [ROp.rProgress c3Params true 0, ROp.tick 6000,
      ROp.tick 7000, ROp.tick 12000] (by decide)).1⟩

theorem playItemInternal_no_stopReport (env : NegotiationEnv)
    (item : BaseItemDto) (spt : Nat) (s : ManagerState) :
    (playItemInternal env item spt s).2.1.countP Ev.isStopReport = 0 := by
  unfold playItemInternal
  cases hpi : env.playbackInfoResult with
  | error e => simp [hpi, Ev.isStopReport]
  | ok pi =>
      cases herr : pi.errorCode with
      | some code => simp [hpi, herr, Ev.isStopReport]
      | none =>
          cases hopt : env.getOptimalMediaSource pi.mediaSources with
          | none => simp [hpi, herr, hopt, Ev.isStopReport]
          | some ms =>
              by_cases hro : ms.requiresOpening = true
              · cases hls : env.liveStreamResult with
                | error e => simp [hpi, herr, hopt, hro, hls, Ev.isStopReport]
                | ok r =>
                    cases hms : r.mediaSource with
                    | some opened =>
                        simp [hpi, herr, hopt, hro, hls, hms, playMediaSource,
                          Ev.isStopReport]
                    | none =>
                        simp [hpi, herr, hopt, hro, hls, hms, playMediaSource,
                          Ev.isStopReport]
              · simp [hpi, herr, hopt, hro, playMediaSource, Ev.isStopReport]

theorem stopPing_countP_stopReport (r : ReporterState) :
    (stopPingInterval r).2.countP Ev.isStopReport = 0 := by
  unfold stopPingInterval
  by_cases hq : r.pingInterval = 0 <;> simp [hq, clearIntervalFn, Ev.isStopReport]

theorem stopPing_countP_playbackInfo (r : ReporterState) :
    (stopPingInterval r).2.countP Ev.isPlaybackInfoReq = 0 := by
  unfold stopPingInterval
  by_cases hq : r.pingInterval = 0 <;>
    simp [hq, clearIntervalFn, Ev.isPlaybackInfoReq]

theorem stopPing_count_postStopped (r : ReporterState) (sid : String) :
    (stopPingInterval r).2.count (Ev.postStopped sid) = 0 := by
  unfold stopPingInterval
  by_cases hq : r.pingInterval = 0 <;> simp [hq, clearIntervalFn]

/-- C1: `playItem(item, options, stopFirst = true)` runs the full stop
sequence — exactly one server-side stop report, carrying the previous
session's `playSessionId`, and the cancellation of the keep-alive ping
timer — strictly before the negotiation of the new item begins, so every
stop-report event precedes every `PlaybackInfo` request event in the trace,
and the negotiation phase emits no further stop report. -/
theorem C1_stop_before_new_item (env : NegotiationEnv) (item : BaseItemDto)
    (spt : Nat) (s : ManagerState) (hinv : reporterInv s.reporter) :
    ∃ e1 e2,
      (playItem env item spt true s).2.1 = e1 ++ e2
      ∧ e1 = (managerStop true s).2
      ∧ e1.countP Ev.isStopReport = 1
      ∧ e1.count (Ev.postStopped s.playbackState.playSessionId) = 1
      ∧ e1.countP Ev.isPlaybackInfoReq = 0
      ∧ (managerStop true s).1.reporter.scheduled = []
      ∧ e2.countP Ev.isStopReport = 0 := by
  refine ⟨(managerStop true s).2,
    (playItemInternal env item spt (managerStop true s).1).2.1,
    rfl, rfl, ?_, ?_, ?_, ?_, playItemInternal_no_stopReport env item spt _⟩
  · show ((jellyfinStop _ ++ (stopPingInterval s.reporter).2)
        ++ [Ev.playerStop]).countP Ev.isStopReport = 1
    rw [List.countP_append, List.countP_append]
    simp [jellyfinStop, Ev.isStopReport, stopPing_countP_stopReport]
  · show ((jellyfinStop _ ++ (stopPingInterval s.reporter).2)
        ++ [Ev.playerStop]).count (Ev.postStopped s.playbackState.playSessionId) = 1
    rw [List.count_append, List.count_append]
    simp [jellyfinStop, stopPing_count_postStopped]
  · show ((jellyfinStop _ ++ (stopPingInterval s.reporter).2)
        ++ [Ev.playerStop]).countP Ev.isPlaybackInfoReq = 0
    rw [List.countP_append, List.countP_append]
    simp [jellyfinStop, Ev.isPlaybackInfoReq, stopPing_countP_playbackInfo]
  · show (stopPingInterval s.reporter).1.scheduled = []
    rw [stopPingInterval_of_inv s.reporter hinv]

/-- C1 witness: the stop-before-negotiation decomposition at a concrete
manager state and environment. -/
theorem C1_stop_before_new_item_witness :
    reporterInv ManagerState.init.reporter
    ∧ ∃ e1 e2,
        (playItem failingEnv { id := "item-1", mediaType := some "Video" } 0
            true ManagerState.init).2.1 = e1 ++ e2
        ∧ e1 = (managerStop true ManagerState.init).2
        ∧ e1.countP Ev.isStopReport = 1
        ∧ e1.count (Ev.postStopped
            ManagerState.init.playbackState.playSessionId) = 1
        ∧ e1.countP Ev.isPlaybackInfoReq = 0
        ∧ (managerStop true ManagerState.init).1.reporter.scheduled = []
        ∧ e2.countP Ev.isStopReport = 0 :=
  ⟨by decide,
   C1_stop_before_new_item failingEnv { id := "item-1", mediaType := some "Video" }
     0 ManagerState.init (by decide)⟩

/-- C4 (counterexample): `resetPlaybackScope` does not return `runtimeTicks`
to its zero value — starting from a state whose `runtimeTicks` is 42, the
field still holds 42 after the reset (the method never writes it). -/
theorem C4_counterexample :
    (resetPlaybackScope
        { initialPlaybackState with runtimeTicks := 42 }).runtimeTicks = 42
    ∧ (resetPlaybackScope
        { initialPlaybackState with runtimeTicks := 42 }).runtimeTicks ≠ 0 :=
  ⟨rfl, by decide⟩

/-- C4 (amended): after `resetPlaybackScope()` every field of
`PlaybackState` except `runtimeTicks` equals its documented zero value
(empty strings for the identifiers, `null` for the object and index fields,
0 for `startPositionTicks`, false for `canSeek`/`isChangingStream`,
undefined for `playMethod`, true for `playNextItemBool`), regardless of the
prior values; `runtimeTicks` alone keeps its previous value. -/
theorem C4_resetPlaybackScope (s : PlaybackState) :
    resetPlaybackScope s =
      { initialPlaybackState with runtimeTicks := s.runtimeTicks } := by
  cases s
  rfl

/-- C6: when the selected source is marked `RequiresOpening`, negotiation
calls the live-stream open; on a successful open returning a media source,
direct-play eligibility is re-checked against the opened source (and only
it), the working source is replaced by the (re-checked) opened source, and
the handoff loads that source; when the open fails, the failure propagates
(the promise rejects), no handoff happens and no alternative source is
attempted — the trace holds exactly one open request and stops there. -/
theorem C6_liveStream_reevaluation (env : NegotiationEnv) (item : BaseItemDto)
    (spt : Nat) (s : ManagerState) (pi : PlaybackInfoResponse)
    (ms : MediaSourceInfo)
    (hpi : env.playbackInfoResult = Except.ok pi)
    (herr : pi.errorCode = none)
    (hopt : env.getOptimalMediaSource pi.mediaSources = some ms)
    (hro : ms.requiresOpening = true) :
    (∀ r opened, env.liveStreamResult = Except.ok r →
        r.mediaSource = some opened →
        (playItemInternal env item spt s).2.1 =
          [Ev.postPlaybackInfo item.id, Ev.postLiveStreamOpen item.id,
           Ev.checkDirectPlay opened.id,
           Ev.playerLoad (env.checkDirectPlayFn opened).id pi.playSessionId]
        ∧ (playItemInternal env item spt s).1.playbackState.PlaybackMediaSource =
            some (env.checkDirectPlayFn opened)
        ∧ (playItemInternal env item spt s).1.playbackState.mediaSource =
            some (env.checkDirectPlayFn opened)
        ∧ (playItemInternal env item spt s).2.2 = PlayOutcome.ok)
    ∧ (∀ e, env.liveStreamResult = Except.error e →
        (playItemInternal env item spt s).2.2 = PlayOutcome.rejected
        ∧ (playItemInternal env item spt s).2.1 =
            [Ev.postPlaybackInfo item.id, Ev.postLiveStreamOpen item.id]
        ∧ (playItemInternal env item spt s).1 =
            { s with playbackState :=
                { s.playbackState with isChangingStream := false } }) := by
  constructor
  · intro r opened hls hms
    refine ⟨?_, ?_, ?_, ?_⟩ <;>
      simp [playItemInternal, hpi, herr, hopt, hro, hls, hms, playMediaSource]
  · intro e hls
    refine ⟨?_, ?_, ?_⟩ <;>
      simp [playItemInternal, hpi, herr, hopt, hro, hls]

/-- C6 witness: the re-evaluation behaviour at the concrete environment
`c6Env` — the trace re-checks and hands off the opened source `c6Opened`
(made direct-playable by the re-check), not the original `c6Source`. -/
theorem C6_liveStream_reevaluation_witness :
    c6Env.playbackInfoResult = Except.ok c6Pi
    ∧ c6Pi.errorCode = none
    ∧ c6Env.getOptimalMediaSource c6Pi.mediaSources = some c6Source
    ∧ c6Source.requiresOpening = true
    ∧ (playItemInternal c6Env { id := "live-item", mediaType := some "Video" } 0
        ManagerState.init).2.1 =
      [Ev.postPlaybackInfo "live-item", Ev.postLiveStreamOpen "live-item",
       Ev.checkDirectPlay "opened", Ev.playerLoad "opened" "ps-1"] :=
  ⟨rfl, rfl, rfl, rfl,
   ((C6_liveStream_reevaluation c6Env
        { id := "live-item", mediaType := some "Video" } 0 ManagerState.init
        c6Pi c6Source rfl rfl rfl rfl).1
      { mediaSource := some c6Opened } c6Opened rfl rfl).1⟩

/-- C7: when no valid next (resp. previous) item exists, `playNextItem`
(resp. `playPreviousItem`) returns `false` and leaves the whole manager
state — playlist, playlist index, playback state, reporter — unchanged, with
an empty event trace; iterating such calls any number of times still leaves
the state unchanged. -/
theorem C7_no_advance_frame (env : NegotiationEnv) (spt : Nat) (b : Bool)
    (s : ManagerState) :
    (getNextPlaybackItemInfo s = none →
      playNextItem env spt b s = (false, s, [])
      ∧ ∀ n, playNextItemIter env spt b n s = s)
    ∧ (s.activePlaylistIndex ≤ 0 →
      playPreviousItem env spt s = (false, s, [])
      ∧ ∀ n, playPreviousItemIter env spt n s = s) := by
  constructor
  · intro hnext
    have hone : playNextItem env spt b s = (false, s, []) := by
      simp [playNextItem, hnext]
    refine ⟨hone, ?_⟩
    intro n
    induction n with
    | zero => rfl
    | succ k ih =>
        show playNextItemIter env spt b k (playNextItem env spt b s).2.1 = s
        rw [hone]
        exact ih
  · intro hprev
    have hcond : ¬0 < s.activePlaylistIndex := by omega
    have hone : playPreviousItem env spt s = (false, s, []) := by
      simp [playPreviousItem, hcond]
    refine ⟨hone, ?_⟩
    intro n
    induction n with
    | zero => rfl
    | succ k ih =>
        show playPreviousItemIter env spt k (playPreviousItem env spt s).2.1 = s
        rw [hone]
        exact ih

/-- C7 witness: the freshly constructed manager (empty window playlist,
index 0) has no next and no previous item, and both calls leave it
unchanged. -/
theorem C7_no_advance_frame_witness :
    getNextPlaybackItemInfo ManagerState.init = none
    ∧ ManagerState.init.activePlaylistIndex ≤ 0
    ∧ playNextItem failingEnv 0 false ManagerState.init =
        (false, ManagerState.init, [])
    ∧ playPreviousItem failingEnv 0 ManagerState.init =
        (false, ManagerState.init, []) := by
  refine ⟨by decide, by decide, ?_, ?_⟩
  · exact ((C7_no_advance_frame failingEnv 0 false ManagerState.init).1
      (by decide)).1
  · exact ((C7_no_advance_frame failingEnv 0 false ManagerState.init).2
      (by decide)).1

theorem detectBitrate_succ (oracle : Nat → Nat) (fuel n : Nat) :
    detectBitrate oracle (fuel + 1) n =
      if oracle (if n > byteLimit then byteLimit else n) * 2 <
           (if n > byteLimit then byteLimit else n) * 8
         ∨ (if n > byteLimit then byteLimit else n) ≥ byteLimit then
        some ((8 * oracle (if n > byteLimit then byteLimit else n) + 5) / 10)
      else
        detectBitrate oracle fuel ((if n > byteLimit then byteLimit else n) * 2) := by
  rfl

/-- C10 (counterexample): at the input `numBytes = 0` the recursion never
returns, whatever the measured bitrates are — the clamp leaves 0 in place,
doubling leaves 0 in place, and neither exit condition (`bitrate * 0.25 <
numBytes`, `numBytes ≥ byteLimit`) can become true at 0 — so the function
does not terminate for every input. -/
theorem C10_counterexample : detectBitrateDivergesAtZero := by
  intro oracle fuel
  induction fuel with
  | zero => rfl
  | succ f ih =>
      rw [detectBitrate_succ]
      have hclamp : ¬(0 > byteLimit) := by decide
      simp only [if_neg hclamp]
      have hcond : ¬(oracle 0 * 2 < 0 * 8 ∨ 0 ≥ byteLimit) := by
        rintro (hlt | hge)
        · omega
        · exact absurd hge (by decide)
      rw [if_neg hcond, Nat.zero_mul]
      exact ih

/-- C10 (amended): `detectBitrate` terminates for every starting size
`numBytes ≥ 1` and every measurement oracle: the argument is clamped to the
10,000,000-byte limit, each recursive call doubles it, and 24 doublings take
any positive size past the limit, so a budget of 25 steps always suffices
(at `numBytes = 0` the recursion diverges instead). -/
theorem C10_detectBitrate_terminates (oracle : Nat → Nat) (numBytes : Nat)
    (h : 1 ≤ numBytes) :
    (detectBitrate oracle 25 numBytes).isSome = true := by
  have key : ∀ (f : Nat) (n : Nat), byteLimit ≤ n * 2 ^ f →
      (detectBitrate oracle (f + 1) n).isSome = true := by
    intro f
    induction f with
    | zero =>
        intro n hn
        rw [pow_zero, mul_one] at hn
        rw [detectBitrate_succ]
        by_cases hcl : n > byteLimit
        · simp [hcl, le_refl]
        · simp [hcl, hn]
    | succ f ihf =>
        intro n hn
        rw [detectBitrate_succ]
        by_cases hcl : n > byteLimit
        · simp [hcl, le_refl]
        · simp only [if_neg hcl]
          by_cases hor : oracle n * 2 < n * 8 ∨ n ≥ byteLimit
          · simp [hor]
          · rw [if_neg hor]
            have hrec : byteLimit ≤ n * 2 * 2 ^ f := by
              have hpow : n * 2 ^ (f + 1) = n * 2 * 2 ^ f := by ring
              omega
            exact ihf (n * 2) hrec
  have h24 : byteLimit ≤ numBytes * 2 ^ 24 := by
    have h1 : byteLimit ≤ 1 * 2 ^ 24 := by norm_num [byteLimit]
    have h2 : 1 * 2 ^ 24 ≤ numBytes * 2 ^ 24 :=
      Nat.mul_le_mul_right _ h
    exact le_trans h1 h2
  exact key 24 numBytes h24

/-- C10 witness: the termination bound applied at the default starting size
of 500,000 bytes. -/
theorem C10_detectBitrate_terminates_witness :
    1 ≤ 500000 ∧ (detectBitrate (fun _ => 0) 25 500000).isSome = true :=
  ⟨by decide, C10_detectBitrate_terminates (fun _ => 0) 500000 (by decide)⟩
